import Mathlib

/-!
Verification of the fetch orchestration core (pkg/core/fetch.go) of cloudquery.

The Go source is shallowly embedded: strings are Lean `String`s viewed as
their character sequences (byte positions in `strings.Index` correspond
one-to-one to character positions for the patterns involved, and Go's
byte-wise string order coincides with code-point order on valid UTF-8),
Go maps are association lists / key lists, `uint64` accumulation is `Nat`
with explicit reduction modulo `2 ^ 64` where the source adds counters,
fallible calls return `Except`/`Option`, and the external collaborators
(plugin manager, provider RPC endpoints, state store) are an explicit
"world" value describing their replies.  Wall-clock fields (durations,
timestamps) and the fetch UUID are not modelled; no claim mentions them.

Definitions whose source is not part of the analyzed files (the internal
sort helper, the cancellation predicate and diagnostic, the telemetry
filter, the wire-diagnostic conversions) are modelled from the spec and
carry a doc comment saying so.
-/

/-- Decidable equality of `Except` values, used to evaluate the embedding on
concrete inputs. -/
instance {ε α : Type} [DecidableEq ε] [DecidableEq α] : DecidableEq (Except ε α) := fun x y =>
  match x, y with
  | Except.ok a, Except.ok b => decidable_of_iff (a = b) (by simp)
  | Except.error a, Except.error b => decidable_of_iff (a = b) (by simp)
  | Except.ok _, Except.error _ => isFalse (fun hc => Except.noConfusion hc)
  | Except.error _, Except.ok _ => isFalse (fun hc => Except.noConfusion hc)

/-- Severity levels of a diagnostic, mirroring the diag package. -/
inductive Severity
  | IGNORE
  | WARNING
  | ERROR
  | PANIC
deriving DecidableEq

/-- Classification of a diagnostic: user error, internal error, or a
per-resource resolving error, mirroring diag.USER / diag.INTERNAL /
diag.RESOLVING. -/
inductive DiagType
  | USER
  | INTERNAL
  | RESOLVING
deriving DecidableEq

/-- One structured diagnostic entry: severity, classification, summary,
details, optional resource-name tag, and a telemetry-eligibility mark
used by the (spec-modelled) telemetry filter. -/
structure Diag where
  severity : Severity
  dtype : DiagType
  summary : String
  detail : String := ""
  resourceName : String := ""
  telemetry : Bool := false
deriving DecidableEq

/-- Error value returned by an external call (a Go `error`), together with
whether it is a cancellation signal. -/
structure GoErr where
  msg : String
  cancelation : Bool
deriving DecidableEq

/-- Modelled from the spec: "Cancellation is a distinct signal, detected via
a dedicated predicate" — cqerrors.IsCancelation is outside the analyzed
source, so whether an error is a cancellation signal is carried as an
attribute of the error value. -/
def IsCancelation (e : GoErr) : Bool := e.cancelation

/-- Modelled from the spec: the runner appends "a cancellation-specific
diagnostic rather than a generic failure diagnostic" — cqerrors.CancelationDiag
is outside the analyzed source. -/
def CancelationDiag (e : GoErr) : Diag :=
  { severity := Severity.ERROR, dtype := DiagType.USER, summary := e.msg
  , detail := "fetch canceled" }

/-- diag.FromError with a classification: an ERROR-severity entry whose
summary is the error text. -/
def fromError (msg : String) (t : DiagType) : Diag :=
  { severity := Severity.ERROR, dtype := t, summary := msg }

/-- diag.FromError applied to a Go error value. -/
def fromErr (e : GoErr) (t : DiagType) : Diag := fromError e.msg t

/-- Go %q quoting for the plain resource names that appear in diagnostics. -/
def quoteS (s : String) : String := "\"" ++ s ++ "\""

/-- The wildcard resource name. -/
def starName : String := "*"

/-- Diagnostic for an empty resource name (doGlobResources). -/
def emptyNameDiag : Diag :=
  { severity := Severity.ERROR, dtype := DiagType.USER
  , summary := "invalid resource"
  , detail := "empty resource names are not allowed" }

/-- Diagnostic for a duplicate resource entry (doGlobResources). -/
def dupDiag (r : String) : Diag :=
  { severity := Severity.ERROR, dtype := DiagType.USER
  , summary := "resource " ++ quoteS r ++ " is duplicate"
  , detail := "configuration has duplicate resources" }

/-- Diagnostic for a requested resource that matches nothing (doGlobResources). -/
def notExistDiag (r : String) : Diag :=
  { severity := Severity.ERROR, dtype := DiagType.USER
  , summary := "resource " ++ quoteS r ++ " does not exist"
  , detail := "configuration refers to a non-existing resource. Maybe you recently downgraded the provider but kept the config, or a typo perhaps?" }

/-- Diagnostic for a wildcard appearing in the skip list (doGlobResources). -/
def wildcardOnlyRequestedDiag : Diag :=
  { severity := Severity.ERROR, dtype := DiagType.USER
  , summary := "wildcard resource can only be in the requested resources list"
  , detail := "you can only use * in the resources part of the configuration" }

/-- Diagnostic for a wildcard mixed with other entries (doGlobResources). -/
def wildcardMustBeOnlyDiag : Diag :=
  { severity := Severity.ERROR, dtype := DiagType.USER
  , summary := "wildcard resource must be the only one in the list"
  , detail := "you can only use * or a list of resources in configuration, but not both" }

/-- Shared summary text of the two glob syntax errors (matchResourceGlob). -/
def invalidWildSummary : String := "invalid wildcard syntax"

/-- Diagnostic for a glob whose `.*` is not at the very end (matchResourceGlob). -/
def invalidWildEndDiag : Diag :=
  { severity := Severity.ERROR, dtype := DiagType.USER
  , summary := invalidWildSummary
  , detail := "resource match should end with `.*`" }

/-- Diagnostic for any other ill-formed use of `*` (matchResourceGlob). -/
def invalidWildUseDiag : Diag :=
  { severity := Severity.ERROR, dtype := DiagType.USER
  , summary := invalidWildSummary
  , detail := "you can only use `*` or `resource.*` or full resource name" }

/-- Diagnostic for a per-resource fetch error reported inside a stream
message (executeFetch, classification RESOLVING, tagged with the resource). -/
def resolvingDiag (msg rn : String) : Diag :=
  { severity := Severity.ERROR, dtype := DiagType.RESOLVING, summary := msg
  , resourceName := rn }

/-- Warning emitted by Fetch for a provider configured with zero resources. -/
def skipWarnDiag (name : String) : Diag :=
  { severity := Severity.WARNING, dtype := DiagType.INTERNAL
  , summary := "skipping provider " ++ name ++ " which configured with 0 resources to fetch" }

/-- Diagnostics.HasErrors of the diag package: some entry has severity at
least ERROR. -/
def isErrorSev (d : Diag) : Bool :=
  match d.severity with
  | Severity.ERROR => true
  | Severity.PANIC => true
  | _ => false

/-- HasErrors over a diagnostics collection. -/
def hasErrorsB (l : List Diag) : Bool := l.any isErrorSev

/-- Diagnostics.Errors of the diag package: the number of error entries. -/
def countErrors (l : List Diag) : Nat := (l.filter isErrorSev).length

/-- Diagnostics.BySeverity(...).Len() for a severity set. -/
def countBySeverity (l : List Diag) (sevs : List Severity) : Nat :=
  (l.filter (fun d => sevs.contains d.severity)).length

/-- Modelled from the spec: the telemetry filter "partitions entries into a
telemetry-safe subset ... and the remainder returned to the caller" —
analytics.FilterTelemetryEvents is outside the analyzed source; eligibility
is carried as the `telemetry` mark of each entry.  Returns
(telemetry events, remaining diagnostics). -/
def FilterTelemetryEvents (l : List Diag) : List Diag × List Diag :=
  (l.filter (fun d => d.telemetry), l.filter (fun d => !d.telemetry))

/-- Modelled from the spec: "Configuration diagnostics returned by the
provider are merged in" — the wire-format conversion convertToConfigureDiags
is outside the analyzed source and is modelled as the identity on
already-structured diagnostics. -/
def convertToConfigureDiags (l : List Diag) : List Diag := l

/-- Modelled from the spec: like `convertToConfigureDiags`, the conversion
convertToFetchDiags (which re-tags stream diagnostics with the provider
name and version) is outside the analyzed source and modelled as the
identity. -/
def convertToFetchDiags (l : List Diag) : List Diag := l

/-- Lexicographic order on the character-sequence view of strings: the order
used by Go's sort.Strings (byte-wise, which agrees with the code-point order
on valid UTF-8). -/
def strLtP (a b : String) : Prop := a.data < b.data

/-- Ordered duplicate-skipping insertion, the building block of the
(spec-modelled) sort-and-deduplicate helper. -/
def insU (x : String) : List String → List String
  | [] => [x]
  | y :: ys => if x.data < y.data then x :: y :: ys else if x = y then y :: ys else y :: insU x ys

/-- Modelled from the spec: "Final result = canonical sorted, duplicate-free
set of accepted names" — the internal sort helper cqsort.Unique is outside
the analyzed source; it is modelled as insertion sort that drops duplicates. -/
def sortUnique (l : List String) : List String := l.foldr insU []

/-- The two-character wildcard suffix `.*` searched for by matchResourceGlob. -/
def dotStar : List Char := ['.', '*']

/-- strings.Index: position of the first occurrence of `sub`, if any. -/
def idxOfSub (sub : List Char) : List Char → Option Nat
  | [] => if sub.isEmpty then some 0 else none
  | c :: cs => if sub.isPrefixOf (c :: cs) then some 0 else (idxOfSub sub cs).map (fun i => i + 1)

/-- matchResourceGlob: matches pattern to the given resources, returns
matched resources or diags; pattern should end with `.*`, exact matches are
not handled (translated from the source; the known-resources map is
embedded as its key list). -/
def matchResourceGlob (pattern : String) (all : List String) : Except Diag (List String) :=
  match idxOfSub dotStar pattern.data with
  | some wildPos =>
    if 0 < wildPos then
      if wildPos ≠ pattern.data.length - 2 then Except.error invalidWildEndDiag
      else Except.ok (all.filter (fun k => (pattern.data.take (wildPos + 1)).isPrefixOf k.data))
    else Except.error invalidWildUseDiag
  | none =>
    if pattern.data.contains '*' then Except.error invalidWildUseDiag
    else Except.ok []

/-- The per-entry loop of doGlobResources: empty-name check, duplicate
check, exact catalog match, lone-wildcard check, then glob matching; `seen`
collects processed entries and `result` the accepted names, and the final
result is sorted and deduplicated. -/
def doGlobLoop (all : List String) : List String → List String → List String → Except Diag (List String)
  | [], _, result => Except.ok (sortUnique result)
  | r :: rest, seen, result =>
    if r = "" then Except.error emptyNameDiag
    else if r ∈ seen then Except.error (dupDiag r)
    else if r ∈ all then doGlobLoop all rest (r :: seen) (result ++ [r])
    else if r = starName then Except.error wildcardMustBeOnlyDiag
    else
      match matchResourceGlob r all with
      | Except.error d => Except.error d
      | Except.ok globMatches =>
        if globMatches.isEmpty then Except.error (notExistDiag r)
        else doGlobLoop all rest (r :: seen) (result ++ globMatches)

/-- doGlobResources: canonical list of resources given requested and all
known resources.  In wild-forbidding mode (`allowWild = true`, used for the
skip list) any `*` entry is a user error; otherwise a requested list that is
exactly the wildcard is replaced by every known resource name. -/
def doGlobResources (requested : List String) (allowWild : Bool) (all : List String) : Except Diag (List String) :=
  if allowWild then
    if requested.contains starName then Except.error wildcardOnlyRequestedDiag
    else doGlobLoop all requested [] []
  else
    doGlobLoop all (if requested = [starName] then all else requested) [] []

/-- funk.Subtract of the go-funk library: the elements of `x` not present
in `y`, in the order of `x`. -/
def funkSubtract (x y : List String) : List String :=
  x.filter (fun a => !(y.contains a))

/-- View of a Go (list, diagnostics) return pair where error returns carry a
nil list: the success value with no diagnostics, or nil with the error. -/
def exceptToPair (e : Except Diag (List String)) : List String × List Diag :=
  match e with
  | Except.ok l => (l, [])
  | Except.error d => ([], [d])

/-- doNormalizeResources: resolve the requested and skip lists against all
provider resources and return requested-result minus skip-result, with the
two diagnostics collections appended. -/
def doNormalizeResources (resources skip : List String) (all : List String) : List String × List Diag :=
  let u := exceptToPair (doGlobResources resources false all)
  let s := exceptToPair (doGlobResources skip true all)
  (funkSubtract u.1 s.1, u.2 ++ s.2)

/-- Whether a character sequence contains the substring `.*`: the spec-side
notion used to state the glob-form condition of the normalization claims. -/
def hasDotStar : List Char → Bool
  | c1 :: c2 :: rest => (c1 == '.' && c2 == '*') || hasDotStar (c2 :: rest)
  | _ => false

/-- The names of the catalog that begin with the dotted prefix `p ++ "."`:
the spec-side description of what a valid glob with prefix `p` matches. -/
def globFilter (p : List Char) (all : List String) : List String :=
  all.filter (fun k => (p ++ ['.']).isPrefixOf k.data)

/-- The example catalog of the normalization scenario in the spec. -/
def catalog4 : List String := ["ec2", "s3", "iam.roles", "iam.policies"]

/-- The glob pattern of the spec's glob-matching example. -/
def fooGlob : String := "foo.*"

/-- Character sequence of the prefix of `fooGlob`. -/
def fooDataP : List Char := ['f', 'o', 'o']

/-- The example catalog of the spec's glob-matching example. -/
def cat3 : List String := ["foo.a", "foo.b", "bar.c"]

/-- A glob pattern whose first `.*` occurrence is not at the very end even
though the pattern does end with `.*`. -/
def patMid : String := "a.*b.*"

/-- The (non-empty) leading part of `patMid` before its final `.*`. -/
def preMid : String := "a.*b"

/-- A catalog name beginning with `preMid` followed by a dot. -/
def keyMid : String := "a.*b.x"

/-- An unknown resource name used in counterexamples. -/
def yres : String := "y"

/-- A known resource name used in counterexamples. -/
def bres : String := "b"

/-- A catalog that contains a resource literally named `*`. -/
def catalogStar : List String := [starName, bres]

/-- A resource name of the spec's example catalog. -/
def ec2 : String := "ec2"


/-- The provider descriptor and configuration pair handed to a runner
(ProviderInfo): flattened to the fields the fetch path reads — the provider
name, its alias, and the configured requested and skip resource lists. -/
structure ProviderInfo where
  name : String
  aliasName : String
  resources : List String
  skipResources : List String
deriving DecidableEq

/-- One streamed FetchResourcesResponse message: the resource name, its
fetched row count, the cumulative finished-resources map, an optional error
text, and the embedded per-resource summary (status string, count,
diagnostics). -/
structure StreamResp where
  resourceName : String
  resourceCount : Nat
  finishedResources : List (String × Bool)
  error : String
  summaryStatus : String
  summaryResourceCount : Nat
  summaryDiagnostics : List Diag
deriving DecidableEq

/-- How a stream terminates: the io.EOF end-of-stream marker or a transport
error. -/
inductive StreamEnd
  | eof
  | err (e : GoErr)
deriving DecidableEq

/-- Replies of the external collaborators for one provider: the plugin
creation outcome, the plugin's version, the configure reply (an error or
the provider's configuration diagnostics), the schema reply (an error or
the catalog key list), whether the FetchResources call itself fails, and
the stream contents and termination. -/
structure PluginWorld where
  createErr : Option GoErr
  version : String
  configure : Except GoErr (List Diag)
  schema : Except GoErr (List String)
  fetchStart : Option GoErr
  stream : List StreamResp
  streamEnd : StreamEnd
deriving DecidableEq

/-- FetchStatus: the terminal status of one provider's fetch, with the same
five declared values as the source enum. -/
inductive FetchStatus
  | FetchFailed
  | FetchConfigureFailed
  | FetchCanceled
  | FetchFinished
  | FetchPartial
deriving DecidableEq

/-- ResourceFetchSummary: execution status string, row count, diagnostics
and telemetry events of one resource (the wall-clock duration field is not
modelled). -/
structure ResourceFetchSummary where
  Status : String
  ResourceCount : Nat
  Diagnostics : List Diag
  TelemetryEvents : List Diag
deriving DecidableEq

/-- ProviderFetchSummary: name, aliasName, version, total fetched count, the
per-resource summary map (an association list keyed by resource name) and
the terminal status (the wall-clock duration field is not modelled). -/
structure ProviderFetchSummary where
  Name : String
  Alias : String
  Version : String
  TotalResourcesFetched : Nat
  FetchedResources : List (String × ResourceFetchSummary)
  Status : FetchStatus
deriving DecidableEq

/-- FetchUpdate: one progress-callback invocation. -/
structure FetchUpdate where
  Name : String
  Alias : String
  Version : String
  FinishedResources : List (String × Bool)
  ResourceCount : Nat
  Error : String
  DiagnosticCount : Nat
deriving DecidableEq

/-- FetchResponse: the per-provider summary map keyed by display string,
the grand total, and the collected telemetry events (the fetch id and the
duration are not modelled). -/
structure FetchResponse where
  ProviderFetchSummary : List (String × ProviderFetchSummary)
  TotalFetched : Nat
  TelemetryEvents : List Diag
deriving DecidableEq

/-- Go map insertion: replace the value at an existing key or append. -/
def updAssoc {α : Type} : List (String × α) → String → α → List (String × α)
  | [], k, v => [(k, v)]
  | (k', v') :: rest, k, v => if k' = k then (k, v) :: rest else (k', v') :: updAssoc rest k v

/-- ProviderFetchSummary.String: the display key `name` or `name(alias)`. -/
def ProviderFetchSummary.displayString (p : ProviderFetchSummary) : String :=
  if p.Alias ≠ "" then p.Name ++ "(" ++ p.Alias ++ ")" else p.Name

/-- ProviderFetchSummary.Diagnostics: the aggregation of the diagnostics
stored inside the FetchedResources entries — and of nothing else. -/
def ProviderFetchSummary.Diagnostics (p : ProviderFetchSummary) : List Diag :=
  (p.FetchedResources.map (fun kv => kv.2.Diagnostics)).flatten

/-- FetchResponse.HasErrors: whether some provider summary's aggregated
diagnostics contain an error. -/
def FetchResponse.HasErrors (fr : FetchResponse) : Bool :=
  fr.ProviderFetchSummary.any (fun kv => hasErrorsB kv.2.Diagnostics)

/-- HasDiags of the diag package: the collection is non-empty. -/
def hasDiagsB (l : List Diag) : Bool := !l.isEmpty

/-- One row of the persisted record for a fetched resource. -/
structure StateResourceFetchSummary where
  resourceName : String
  status : String
  error : String
  resourceCount : Nat
deriving DecidableEq

/-- Diagnostics.Error of the sdk: a compact concatenation of the error
summaries (the exact separator is immaterial to the claims). -/
def diagsError (l : List Diag) : String :=
  String.intercalate (", ") ((l.filter isErrorSev).map (fun d => d.summary))

/-- parseFetchedResources: the per-resource rows of the persisted record. -/
def parseFetchedResources (resources : List (String × ResourceFetchSummary)) : List StateResourceFetchSummary :=
  resources.map (fun kv =>
    { resourceName := kv.1, status := kv.2.Status
    , error := diagsError kv.2.Diagnostics, resourceCount := kv.2.ResourceCount })

/-- The persisted fetch-summary record (uuid and wall-clock fields are not
modelled). -/
structure StateFetchSummary where
  isSuccess : Bool
  totalResourceCount : Nat
  totalErrorsCount : Nat
  providerName : String
  providerAlias : String
  providerVersion : String
  resources : List StateResourceFetchSummary
deriving DecidableEq

/-- createFetchSummary: the persisted record derived from one provider
summary; its success flag is the negation of HasErrors over the summary's
aggregated (per-resource) diagnostics. -/
def createFetchSummary (ps : ProviderFetchSummary) : StateFetchSummary :=
  { isSuccess := !(hasErrorsB ps.Diagnostics)
  , totalResourceCount := ps.TotalResourcesFetched
  , totalErrorsCount := countErrors ps.Diagnostics
  , providerName := ps.Name
  , providerAlias := ps.Alias
  , providerVersion := ps.Version
  , resources := parseFetchedResources ps.FetchedResources }

/-- Modulus of Go's uint64 counters. -/
def U64 : Nat := 2 ^ 64

/-- The stream-consumption loop of executeFetch.  For each streamed message:
the callback is invoked first (its diagnostic count is taken before this
message's additions), the row count is added to the provider total (uint64),
the per-resource summary is inserted (last message for a resource wins, its
embedded diagnostics split by the telemetry filter), then a RESOLVING
diagnostic is appended for a non-empty error text and the remaining
per-resource diagnostics are appended.  The EOF marker returns the
accumulated state unchanged; a transport error first invokes the callback
with the error text and the full diagnostic count, then marks the summary
Canceled or Failed by the cancellation predicate with the matching
diagnostic appended.  Returns (summary, diagnostics, callback trace). -/
def consumeStream (cb : Bool) (pname palias pver : String) : List StreamResp → StreamEnd → ProviderFetchSummary → List Diag → List FetchUpdate → ProviderFetchSummary × List Diag × List FetchUpdate
  | [], StreamEnd.eof, s, d, u => (s, d, u)
  | [], StreamEnd.err e, s, d, u =>
    let u' := if cb then u ++ [{ Name := pname, Alias := palias, Version := pver
                               , FinishedResources := [], ResourceCount := 0
                               , Error := e.msg, DiagnosticCount := d.length }] else u
    if IsCancelation e then ({ s with Status := FetchStatus.FetchCanceled }, d ++ [CancelationDiag e], u')
    else ({ s with Status := FetchStatus.FetchFailed }, d ++ [fromErr e DiagType.INTERNAL], u')
  | resp :: restStream, en, s, d, u =>
    let ev := FilterTelemetryEvents resp.summaryDiagnostics
    let u' := if cb then u ++ [{ Name := pname, Alias := palias, Version := pver
                               , FinishedResources := resp.finishedResources
                               , ResourceCount := resp.resourceCount, Error := ""
                               , DiagnosticCount := countBySeverity d [Severity.WARNING, Severity.ERROR, Severity.PANIC] }] else u
    let rfs : ResourceFetchSummary :=
      { Status := resp.summaryStatus, ResourceCount := resp.summaryResourceCount
      , Diagnostics := ev.2, TelemetryEvents := ev.1 }
    let s' := { s with
      TotalResourcesFetched := (s.TotalResourcesFetched + resp.resourceCount) % U64,
      FetchedResources := updAssoc s.FetchedResources resp.resourceName rfs }
    let d' := if resp.error ≠ "" then d ++ [resolvingDiag resp.error resp.resourceName] else d
    let d2 := if hasDiagsB ev.2 then d' ++ ev.2 else d'
    consumeStream cb pname palias pver restStream en s' d2 u'

/-- The initial per-provider summary built at the top of executeFetch, with
status Finished. -/
def initialSummary (w : PluginWorld) (info : ProviderInfo) : ProviderFetchSummary :=
  { Name := info.name, Alias := info.aliasName, Version := w.version
  , TotalResourcesFetched := 0, FetchedResources := [], Status := FetchStatus.FetchFinished }

/-- normalizeResources: fetch the provider schema (an error yields a nil
list and an INTERNAL diagnostic) and normalize the requested and skip lists
against it. -/
def normalizeResources (w : PluginWorld) (info : ProviderInfo) : List String × List Diag :=
  match w.schema with
  | Except.error e => ([], [fromErr e DiagType.INTERNAL])
  | Except.ok all => doNormalizeResources info.resources info.skipResources all

/-- executeFetch: normalization (an error aborts with status Failed and the
normalization diagnostics), the FetchResources call (an immediate error
aborts with status Failed and only the new INTERNAL diagnostic, as in the
source), then the stream-consumption loop seeded with the initial summary
and the normalization diagnostics. -/
def executeFetch (w : PluginWorld) (info : ProviderInfo) (cb : Bool) : ProviderFetchSummary × List Diag × List FetchUpdate :=
  let s0 := initialSummary w info
  let nr := normalizeResources w info
  if hasErrorsB nr.2 then ({ s0 with Status := FetchStatus.FetchFailed }, nr.2, [])
  else
    match w.fetchStart with
    | some e => ({ s0 with Status := FetchStatus.FetchFailed }, [fromErr e DiagType.INTERNAL], [])
    | none => consumeStream cb info.name info.aliasName w.version w.stream w.streamEnd s0 nr.2 []

/-- The summary synthesized when configuration fails or returns error
diagnostics: name, aliasName and the plugin's version with an empty resource
map and the given terminal status. -/
def cfgSummary (w : PluginWorld) (info : ProviderInfo) (sts : FetchStatus) : ProviderFetchSummary :=
  { Name := info.name, Alias := info.aliasName, Version := w.version
  , TotalResourcesFetched := 0, FetchedResources := [], Status := sts }

/-- runProviderFetch: create the plugin (a creation error yields an INTERNAL
diagnostic and a nil summary for this provider's slot), configure the
provider (an error yields the Canceled or ConfigureFailed summary according
to the cancellation predicate; configuration diagnostics containing errors
yield ConfigureFailed), then executeFetch with the configure diagnostics
prepended to its converted diagnostics. -/
def runProviderFetch (w : PluginWorld) (info : ProviderInfo) (cb : Bool) : Option ProviderFetchSummary × List Diag × List FetchUpdate :=
  match w.createErr with
  | some e => (none, [fromErr e DiagType.INTERNAL], [])
  | none =>
    match w.configure with
    | Except.error e =>
      if IsCancelation e then (some (cfgSummary w info FetchStatus.FetchCanceled), [CancelationDiag e], [])
      else (some (cfgSummary w info FetchStatus.FetchConfigureFailed), [fromErr e DiagType.INTERNAL], [])
    | Except.ok cfgDiags =>
      let diags := convertToConfigureDiags cfgDiags
      if hasErrorsB diags then (some (cfgSummary w info FetchStatus.FetchConfigureFailed), diags, [])
      else
        let r := executeFetch w info cb
        (some r.1, diags ++ convertToFetchDiags r.2.1, r.2.2)

/-- One entry of FetchOptions.ProvidersInfo, together with that provider's
external world and the outcome of its persistence call. -/
structure ProvEntry where
  name : String
  aliasName : String
  resources : List String
  skipResources : List String
  world : PluginWorld
  saveErr : Option GoErr
deriving DecidableEq

/-- The provider info a runner reads from an options entry. -/
def ProvEntry.info (p : ProvEntry) : ProviderInfo :=
  { name := p.name, aliasName := p.aliasName, resources := p.resources, skipResources := p.skipResources }

/-- Display key of a provider entry, the same rule as the summary display
string. -/
def ProvEntry.display (p : ProvEntry) : String :=
  if p.aliasName ≠ "" then p.name ++ "(" ++ p.aliasName ++ ")" else p.name

/-- Orchestrator-level external state: the DSN parse outcome and whether the
caller's context carries a deadline (which skips persistence). -/
structure FetchWorld where
  dsnResult : Except GoErr String
  hasDeadline : Bool
deriving DecidableEq

/-- One goroutine of Fetch's fan-out: run the provider, then — when no
deadline is set — derive and save the persisted record.  Deriving the
record calls ProviderFetchSummary.Diagnostics on the summary pointer, so a
nil summary is a nil-pointer dereference: the goroutine panics (`none`).
A persistence error adds an INTERNAL diagnostic. -/
def runProviderEntry (hasDeadline : Bool) (cb : Bool) (p : ProvEntry) : Option (Option ProviderFetchSummary × List Diag) :=
  let r := runProviderFetch p.world p.info cb
  if hasDeadline then some (r.1, r.2.1)
  else
    match r.1 with
    | none => none
    | some s =>
      match p.saveErr with
      | some e => some (some s, r.2.1 ++ [fromErr e DiagType.INTERNAL])
      | none => some (some s, r.2.1)

/-- How a Fetch call ends: a normal return of the (response, diagnostics)
pair — the response is nil on the top-level error paths — or a runtime
panic. -/
inductive FetchOutcome
  | panic
  | ret (res : Option FetchResponse) (diags : List Diag)
deriving DecidableEq

/-- Sequencing of the fan-out results: a panic in any goroutine crashes the
whole Fetch call. -/
def sequenceOpt {α : Type} : List (Option α) → Option (List α)
  | [] => some []
  | none :: _ => none
  | some a :: rest => (sequenceOpt rest).map (fun l => a :: l)

/-- The drain loop of Fetch: keying the response map by
ps.summary.String() dereferences the summary pointer, so a nil summary
panics (`none`); otherwise the summary is inserted, its diagnostics
appended, and its total added to the uint64 running total. -/
def aggregateResults : List (Option ProviderFetchSummary × List Diag) → List (String × ProviderFetchSummary) → Nat → List Diag → Option (List (String × ProviderFetchSummary) × Nat × List Diag)
  | [], m, t, ds => some (m, t, ds)
  | (none, _) :: _, _, _, _ => none
  | (some s, d) :: rest, m, t, ds =>
    aggregateResults rest (updAssoc m s.displayString s) ((t + s.TotalResourcesFetched) % U64) (ds ++ d)

/-- Fetch: resolve the DSN (an error is fatal, returning a nil response and
an INTERNAL diagnostic), warn about and skip providers configured with zero
resources, run one runner per remaining provider, join, drain the results
into the response keyed by display string, and pass the accumulated
diagnostics through the telemetry filter, attaching the events to the
response. -/
def Fetch (fw : FetchWorld) (providers : List ProvEntry) (cb : Bool) : FetchOutcome :=
  match fw.dsnResult with
  | Except.error e => FetchOutcome.ret none [fromErr e DiagType.INTERNAL]
  | Except.ok _ =>
    let skipDiags := (providers.filter (fun p => p.resources.isEmpty)).map (fun p => skipWarnDiag p.name)
    let attempted := providers.filter (fun p => !p.resources.isEmpty)
    match sequenceOpt (attempted.map (runProviderEntry fw.hasDeadline cb)) with
    | none => FetchOutcome.panic
    | some rs =>
      match aggregateResults rs [] 0 skipDiags with
      | none => FetchOutcome.panic
      | some mtd =>
        let ev := FilterTelemetryEvents mtd.2.2
        FetchOutcome.ret (some { ProviderFetchSummary := mtd.1, TotalFetched := mtd.2.1, TelemetryEvents := ev.1 }) ev.2

/-- The uint64 sum of a list of counters. -/
def sumU64 (l : List Nat) : Nat := l.foldr (fun a b => (a + b) % U64) 0

/-- The sum of TotalResourcesFetched over the response map, as a uint64
computation. -/
def responseSummarySum (r : FetchResponse) : Nat :=
  sumU64 (r.ProviderFetchSummary.map (fun kv => kv.2.TotalResourcesFetched))

/-- A non-cancellation error. -/
def plainErr : GoErr := { msg := "boom", cancelation := false }

/-- A cancellation error. -/
def cancelErr : GoErr := { msg := "context canceled", cancelation := true }

/-- A world whose plugin instantiation fails. -/
def badCreateWorld : PluginWorld :=
  { createErr := some { msg := "exec failed", cancelation := false }, version := ""
  , configure := Except.ok [], schema := Except.ok [], fetchStart := none
  , stream := [], streamEnd := StreamEnd.eof }

/-- A provider entry whose plugin instantiation fails. -/
def badProv : ProvEntry :=
  { name := "aws", aliasName := "", resources := [ec2], skipResources := []
  , world := badCreateWorld, saveErr := none }

/-- A fetch world with a parsed DSN and no context deadline. -/
def fw0 : FetchWorld := { dsnResult := Except.ok "", hasDeadline := false }

/-- A fully successful single-resource world. -/
def okWorld : PluginWorld :=
  { createErr := none, version := "v1"
  , configure := Except.ok [], schema := Except.ok [ec2], fetchStart := none
  , stream := [{ resourceName := ec2, resourceCount := 1, finishedResources := []
               , error := "", summaryStatus := "ok", summaryResourceCount := 1
               , summaryDiagnostics := [] }]
  , streamEnd := StreamEnd.eof }

/-- A provider entry over the successful world. -/
def okProv : ProvEntry :=
  { name := "aws", aliasName := "", resources := [ec2], skipResources := []
  , world := okWorld, saveErr := none }

/-- A world whose configure call fails with a non-cancellation error. -/
def cfgErrWorld : PluginWorld :=
  { createErr := none, version := "v1"
  , configure := Except.error plainErr
  , schema := Except.ok [], fetchStart := none, stream := [], streamEnd := StreamEnd.eof }

/-- The summary the successful world produces. -/
def okSummary : ProviderFetchSummary :=
  { Name := "aws", Alias := "", Version := "v1", TotalResourcesFetched := 1
  , FetchedResources := [(ec2, { Status := "ok", ResourceCount := 1, Diagnostics := [], TelemetryEvents := [] })]
  , Status := FetchStatus.FetchFinished }

/-- The response of a fetch over one successful provider. -/
def okResp : FetchResponse :=
  { ProviderFetchSummary := [("aws", okSummary)], TotalFetched := 1, TelemetryEvents := [] }

/-- The response of a fetch over the same successful provider listed twice:
the display-keyed map keeps one entry while the total counts both. -/
def dupResp : FetchResponse :=
  { ProviderFetchSummary := [("aws", okSummary)], TotalFetched := 2, TelemetryEvents := [] }

/-! ## Lemmas about the sort-and-deduplicate helper -/

theorem data_inj {a b : String} (h : a.data = b.data) : a = b := by
  cases a
  cases b
  exact congrArg String.mk h

theorem strLtP_ne {a b : String} (h : strLtP a b) : a ≠ b := by
  intro he
  subst he
  exact lt_irrefl _ h

theorem data_ne_of_ne {a b : String} (h : a ≠ b) : a.data ≠ b.data :=
  fun hd => h (data_inj hd)

theorem mem_insU {a x : String} : ∀ {l : List String}, a ∈ insU x l ↔ (a = x ∨ a ∈ l) := by
  intro l
  induction l with
  | nil => simp [insU]
  | cons y ys ih =>
    by_cases h1 : x.data < y.data
    · simp [insU, h1, List.mem_cons]
    · by_cases h2 : x = y
      · subst h2
        simp [insU, h1, List.mem_cons]
      · simp [insU, h1, h2, List.mem_cons, ih]
        tauto

theorem pairwise_insU {x : String} : ∀ {l : List String}, l.Pairwise strLtP → (insU x l).Pairwise strLtP := by
  intro l
  induction l with
  | nil => intro _; simp [insU, List.pairwise_cons, strLtP]
  | cons y ys ih =>
    intro h
    rcases List.pairwise_cons.mp h with ⟨hy, hys⟩
    by_cases h1 : x.data < y.data
    · simp only [insU, if_pos h1]
      refine List.pairwise_cons.mpr ⟨?_, h⟩
      intro b hb
      rcases List.mem_cons.mp hb with hb | hb
      · subst hb; exact h1
      · exact lt_trans h1 (hy b hb)
    · by_cases h2 : x = y
      · simp only [insU, if_neg h1, if_pos h2]
        exact h
      · simp only [insU, if_neg h1, if_neg h2]
        refine List.pairwise_cons.mpr ⟨?_, ih hys⟩
        intro b hb
        rcases mem_insU.mp hb with hb | hb
        · rw [hb]
          have ht := lt_trichotomy (x.data) (y.data)
          rcases ht with hlt | heq | hgt
          · exact absurd hlt h1
          · exact absurd (data_inj heq) h2
          · exact hgt
        · exact hy b hb

theorem sortUnique_cons (x : String) (l : List String) : sortUnique (x :: l) = insU x (sortUnique l) := rfl

theorem sortUnique_pairwise : ∀ (l : List String), (sortUnique l).Pairwise strLtP := by
  intro l
  induction l with
  | nil => simp [sortUnique]
  | cons x xs ih => exact pairwise_insU ih

theorem mem_sortUnique {a : String} : ∀ {l : List String}, a ∈ sortUnique l ↔ a ∈ l := by
  intro l
  induction l with
  | nil => simp [sortUnique]
  | cons x xs ih =>
    rw [sortUnique_cons, mem_insU, ih]
    simp [List.mem_cons]

theorem insU_eq_cons {x : String} {l : List String} (h : ∀ y ∈ l, strLtP x y) : insU x l = x :: l := by
  cases l with
  | nil => rfl
  | cons y ys =>
    have hxy : x.data < y.data := h y (List.mem_cons_self y ys)
    simp [insU, hxy]

theorem sortUnique_eq_self : ∀ {l : List String}, l.Pairwise strLtP → sortUnique l = l := by
  intro l
  induction l with
  | nil => intro _; rfl
  | cons x xs ih =>
    intro h
    rcases List.pairwise_cons.mp h with ⟨hx, hxs⟩
    rw [sortUnique_cons, ih hxs, insU_eq_cons hx]

theorem nodup_of_pairwise {l : List String} (h : l.Pairwise strLtP) : l.Nodup :=
  h.imp strLtP_ne

/-! ## Lemmas about glob matching and the doGlobResources loop -/

theorem matchGlob_error_user {r : String} {all : List String} {d : Diag} (h : matchResourceGlob r all = Except.error d) : d.dtype = DiagType.USER := by
  unfold matchResourceGlob at h
  split at h <;> split_ifs at h <;> (rw [Except.error.injEq] at h; subst h; rfl)

theorem matchGlob_ok_mem {r : String} {all ms : List String} (h : matchResourceGlob r all = Except.ok ms) : ∀ x ∈ ms, x ∈ all ∧ x ≠ "" := by
  intro x hx
  unfold matchResourceGlob at h
  split at h
  next w hidx =>
    split_ifs at h with hw hne
    rw [Except.ok.injEq] at h
    subst h
    rcases List.mem_filter.mp hx with ⟨hxall, hpre⟩
    refine ⟨hxall, ?_⟩
    intro hxe
    subst hxe
    have hrne : r.data ≠ [] := by
      intro h0
      rw [h0] at hidx
      simp [idxOfSub, dotStar] at hidx
    have htk : r.data.take (w + 1) = [] := by
      cases htk : r.data.take (w + 1) with
      | nil => rfl
      | cons c cs =>
        rw [htk] at hpre
        simp [List.isPrefixOf] at hpre
    rcases List.take_eq_nil_iff.mp htk with h0 | h0
    · exact Nat.succ_ne_zero w h0
    · exact hrne h0
  next hidx =>
    split_ifs at h with hc
    rw [Except.ok.injEq] at h
    subst h
    cases hx

theorem globLoop_error_user {all : List String} : ∀ (rs seen res : List String) (d : Diag), doGlobLoop all rs seen res = Except.error d → d.dtype = DiagType.USER := by
  intro rs
  induction rs with
  | nil =>
    intro seen res d h
    simp [doGlobLoop] at h
  | cons r rest ih =>
    intro seen res d h
    simp only [doGlobLoop] at h
    split_ifs at h with h1 h2 h3 h4
    · rw [Except.error.injEq] at h; subst h; rfl
    · rw [Except.error.injEq] at h; subst h; rfl
    · exact ih _ _ _ h
    · rw [Except.error.injEq] at h; subst h; rfl
    · split at h
      next d' hm =>
        rw [Except.error.injEq] at h
        subst h
        exact matchGlob_error_user hm
      next ms hm =>
        split_ifs at h with h5
        · rw [Except.error.injEq] at h; subst h; rfl
        · exact ih _ _ _ h

theorem globLoop_ok_inv {all : List String} : ∀ (rs seen res v : List String), doGlobLoop all rs seen res = Except.ok v → ("" ∉ rs ∧ rs.Nodup ∧ ∀ r ∈ rs, r ∉ seen) := by
  intro rs
  induction rs with
  | nil =>
    intro seen res v _
    exact ⟨by simp, List.nodup_nil, by simp⟩
  | cons r rest ih =>
    intro seen res v h
    simp only [doGlobLoop] at h
    split_ifs at h with h1 h2 h3 h4
    · rcases ih _ _ _ h with ⟨he, hnd, hseen⟩
      have hrrest : r ∉ rest := fun hr => (hseen r hr) (List.mem_cons_self r seen)
      refine ⟨?_, List.nodup_cons.mpr ⟨hrrest, hnd⟩, ?_⟩
      · intro hmem
        rcases List.mem_cons.mp hmem with hh | hh
        · exact h1 hh.symm
        · exact he hh
      · intro x hx
        rcases List.mem_cons.mp hx with hh | hh
        · subst hh; exact h2
        · intro hxs
          exact (hseen x hh) (List.mem_cons_of_mem r hxs)
    · split at h
      next d' hm => exact Except.noConfusion h
      next ms hm =>
        split_ifs at h with h5
        rcases ih _ _ _ h with ⟨he, hnd, hseen⟩
        have hrrest : r ∉ rest := fun hr => (hseen r hr) (List.mem_cons_self r seen)
        refine ⟨?_, List.nodup_cons.mpr ⟨hrrest, hnd⟩, ?_⟩
        · intro hmem
          rcases List.mem_cons.mp hmem with hh | hh
          · exact h1 hh.symm
          · exact he hh
        · intro x hx
          rcases List.mem_cons.mp hx with hh | hh
          · subst hh; exact h2
          · intro hxs
            exact (hseen x hh) (List.mem_cons_of_mem r hxs)

theorem globLoop_exact {all : List String} : ∀ (pre rest seen res : List String), (∀ x ∈ pre, x ≠ "" ∧ x ∈ all) → pre.Nodup → (∀ x ∈ pre, x ∉ seen) → doGlobLoop all (pre ++ rest) seen res = doGlobLoop all rest (pre.reverse ++ seen) (res ++ pre) := by
  intro pre
  induction pre with
  | nil =>
    intro rest seen res _ _ _
    simp
  | cons p ps ih =>
    intro rest seen res hall hnd hseen
    have hp := hall p (List.mem_cons_self p ps)
    have hpseen := hseen p (List.mem_cons_self p ps)
    rcases List.nodup_cons.mp hnd with ⟨hpps, hndps⟩
    have hstep : doGlobLoop all ((p :: ps) ++ rest) seen res = doGlobLoop all (ps ++ rest) (p :: seen) (res ++ [p]) := by
      simp only [List.cons_append, doGlobLoop]
      rw [if_neg hp.1, if_neg hpseen, if_pos hp.2]
      rfl
    rw [hstep]
    rw [ih rest (p :: seen) (res ++ [p])
      (fun x hx => hall x (List.mem_cons_of_mem p hx)) hndps
      (fun x hx => by
        intro hxs
        rcases List.mem_cons.mp hxs with hh | hh
        · subst hh; exact hpps hx
        · exact (hseen x (List.mem_cons_of_mem p hx)) hh)]
    simp [List.reverse_cons, List.append_assoc]

theorem globLoop_ok_mem {all : List String} : ∀ (rs seen res v : List String), doGlobLoop all rs seen res = Except.ok v → (∀ x ∈ res, x ∈ all ∧ x ≠ "") → (∀ x ∈ v, x ∈ all ∧ x ≠ "") := by
  intro rs
  induction rs with
  | nil =>
    intro seen res v h hres
    simp only [doGlobLoop, Except.ok.injEq] at h
    subst h
    intro x hx
    exact hres x (mem_sortUnique.mp hx)
  | cons r rest ih =>
    intro seen res v h hres
    simp only [doGlobLoop] at h
    split_ifs at h with h1 h2 h3 h4
    · refine ih _ _ _ h ?_
      intro x hx
      rcases List.mem_append.mp hx with hh | hh
      · exact hres x hh
      · rcases List.mem_singleton.mp hh with rfl
        exact ⟨h3, h1⟩
    · split at h
      next d' hm => exact Except.noConfusion h
      next ms hm =>
        split_ifs at h with h5
        refine ih _ _ _ h ?_
        intro x hx
        rcases List.mem_append.mp hx with hh | hh
        · exact hres x hh
        · exact matchGlob_ok_mem hm x hh

theorem globLoop_ok_sorted {all : List String} : ∀ (rs seen res v : List String), doGlobLoop all rs seen res = Except.ok v → v.Pairwise strLtP := by
  intro rs
  induction rs with
  | nil =>
    intro seen res v h
    simp only [doGlobLoop, Except.ok.injEq] at h
    subst h
    exact sortUnique_pairwise res
  | cons r rest ih =>
    intro seen res v h
    simp only [doGlobLoop] at h
    split_ifs at h with h1 h2 h3 h4
    · exact ih _ _ _ h
    · split at h
      next d' hm => exact Except.noConfusion h
      next ms hm =>
        split_ifs at h with h5
        exact ih _ _ _ h

theorem doGlob_ok_sorted {R all : List String} {w : Bool} {v : List String} (h : doGlobResources R w all = Except.ok v) : v.Pairwise strLtP := by
  unfold doGlobResources at h
  split_ifs at h <;> exact globLoop_ok_sorted _ _ _ _ h

theorem doGlob_ok_mem {R all : List String} {w : Bool} {v : List String} (h : doGlobResources R w all = Except.ok v) : ∀ x ∈ v, x ∈ all ∧ x ≠ "" := by
  unfold doGlobResources at h
  split_ifs at h <;> exact globLoop_ok_mem _ _ _ _ h (by simp)

/-! ## Lemmas about the position of the wildcard suffix -/

theorem idx_append_dotStar : ∀ (p : List Char), hasDotStar p = false → idxOfSub dotStar (p ++ dotStar) = some p.length := by
  intro p
  induction p with
  | nil =>
    intro _
    simp [idxOfSub, dotStar, List.isPrefixOf]
  | cons c p' ih =>
    intro h
    have hpre : dotStar.isPrefixOf (c :: (p' ++ dotStar)) = false := by
      cases p' with
      | nil => simp [dotStar, List.isPrefixOf]
      | cons d p'' =>
        simp only [hasDotStar, Bool.or_eq_false_iff] at h
        by_cases hc : c = '.'
        · by_cases hd : d = '*'
          · exfalso
            rw [hc, hd] at h
            simp at h
          · simp only [dotStar, List.cons_append, List.isPrefixOf]
            simp
            intro _ h2
            exact hd h2.symm
        · simp only [dotStar, List.cons_append, List.isPrefixOf]
          simp
          intro h1
          exact absurd h1.symm hc
    have hih : hasDotStar p' = false := by
      cases p' with
      | nil => rfl
      | cons d p'' =>
        simp only [hasDotStar, Bool.or_eq_false_iff] at h
        exact h.2
    have hstep : idxOfSub dotStar (c :: (p' ++ dotStar)) = (idxOfSub dotStar (p' ++ dotStar)).map (fun i => i + 1) := by
      simp only [idxOfSub, hpre]
      simp
    rw [List.cons_append, hstep, ih hih]
    simp

theorem idx_append_isSome : ∀ (p : List Char), (idxOfSub dotStar (p ++ dotStar)).isSome = true := by
  intro p
  induction p with
  | nil => simp [idxOfSub, dotStar, List.isPrefixOf]
  | cons c p' ih =>
    cases hp : dotStar.isPrefixOf (c :: (p' ++ dotStar)) with
    | true => simp [idxOfSub, List.cons_append, hp]
    | false =>
      have hstep : idxOfSub dotStar (c :: (p' ++ dotStar)) = (idxOfSub dotStar (p' ++ dotStar)).map (fun i => i + 1) := by
        simp only [idxOfSub, hp]
        simp
      rw [List.cons_append, hstep]
      simpa using ih

theorem take_append_dot : ∀ (p : List Char), (p ++ dotStar).take (p.length + 1) = p ++ ['.'] := by
  intro p
  rw [List.take_append]
  rfl

theorem idx_end_decomp : ∀ (l : List Char) (w : Nat), idxOfSub dotStar l = some w → 0 < w → w = l.length - 2 → ∃ p, l = p ++ dotStar ∧ p.length = w ∧ hasDotStar p = false ∧ p ≠ [] := by
  intro l
  induction l with
  | nil =>
    intro w h _ _
    simp [idxOfSub, dotStar] at h
  | cons c cs ih =>
    intro w h hw hlen
    cases hp : dotStar.isPrefixOf (c :: cs) with
    | true =>
      simp only [idxOfSub, hp, if_true] at h
      rw [Option.some.injEq] at h
      omega
    | false =>
      simp only [idxOfSub, hp] at h
      rw [if_neg (by simp)] at h
      rcases Option.map_eq_some'.mp h with ⟨w', hw', hww⟩
      have hcs_ne : cs ≠ [] := by
        intro h0
        rw [h0] at hw'
        simp [idxOfSub, dotStar] at hw'
      have hcs_len : 1 ≤ cs.length := by
        cases cs with
        | nil => exact absurd rfl hcs_ne
        | cons d ds => simp
      have hclen : (c :: cs).length = cs.length + 1 := rfl
      have hcslen : cs.length = w' + 2 := by omega
      cases w' with
      | zero =>
        have hpre : dotStar.isPrefixOf cs = true := by
          cases cs with
          | nil => exact absurd rfl hcs_ne
          | cons d ds =>
            by_cases hdp : dotStar.isPrefixOf (d :: ds) = true
            · exact hdp
            · exfalso
              simp only [idxOfSub] at hw'
              rw [if_neg hdp] at hw'
              rcases Option.map_eq_some'.mp hw' with ⟨w'', _, hw2⟩
              omega
        have hcs : cs = dotStar := by
          rcases List.isPrefixOf_iff_prefix.mp hpre with ⟨t, ht⟩
          have hlt : t.length = 0 := by
            have hlen2 := congrArg List.length ht
            simp [dotStar] at hlen2
            omega
          rw [List.length_eq_zero.mp hlt] at ht
          simpa using ht.symm
        have hw1 : w = 1 := by omega
        subst hw1
        refine ⟨[c], by simp [hcs], by simp, rfl, by simp⟩
      | succ w'' =>
        rcases ih (w'' + 1) hw' (by omega) (by omega) with ⟨p', hp1, hp2, hp3, hp4⟩
        refine ⟨c :: p', ?_, ?_, ?_, by simp⟩
        · rw [List.cons_append, ← hp1]
        · simp only [List.length_cons, hp2]
          omega
        · cases p' with
          | nil => exact absurd rfl hp4
          | cons e p'' =>
            simp only [hasDotStar, Bool.or_eq_false_iff]
            refine ⟨?_, hp3⟩
            by_cases hc : c = '.'
            · by_cases he : e = '*'
              · exfalso
                rw [hp1] at hp
                rw [hc, he] at hp
                simp [dotStar, List.isPrefixOf, List.cons_append] at hp
              · simp [he]
            · simp [hc]

/-! ## Helper lemmas shared by the normalization claims -/

theorem funkSubtract_nil (l : List String) : funkSubtract l [] = l := by
  unfold funkSubtract
  exact List.filter_eq_self.mpr (fun a _ => rfl)

theorem globLoop_glob_error {all : List String} {r : String} {d : Diag} (rest seen res : List String) (h1 : r ≠ "") (h2 : r ∉ seen) (h3 : r ∉ all) (h4 : r ≠ starName) (hm : matchResourceGlob r all = Except.error d) : doGlobLoop all (r :: rest) seen res = Except.error d := by
  simp only [doGlobLoop]
  rw [if_neg h1, if_neg h2, if_neg h3, if_neg h4, hm]

theorem doGlob_nonwild_loop {R all : List String} (h : R ≠ [starName]) : doGlobResources R false all = doGlobLoop all R [] [] := by
  show doGlobLoop all (if R = [starName] then all else R) [] [] = doGlobLoop all R [] []
  rw [if_neg h]

theorem doGlob_wild_loop {R all : List String} (h : R.contains starName = false) : doGlobResources R true all = doGlobLoop all R [] [] := by
  have h' : ¬ (R.contains starName = true) := by
    rw [h]
    exact Bool.false_ne_true
  show (if R.contains starName = true then Except.error wildcardOnlyRequestedDiag else doGlobLoop all R [] []) = doGlobLoop all R [] []
  rw [if_neg h']

/-! ## Claim theorems: resource-name normalization -/

/-- Claim C3 (counterexample): the claim quantifies over every resource
catalog, but for the catalog whose only (duplicate-free) resource name is
the empty string, normalizing the requested list `["*"]` does not succeed:
the wildcard expansion feeds the empty name into the per-entry loop, which
rejects it with the user-classified empty-name diagnostic. -/
theorem wildcard_emptyName_catalog_cex :
    ([""] : List String).Nodup ∧
    doGlobResources [starName] false [""] = Except.error emptyNameDiag ∧
    emptyNameDiag.dtype = DiagType.USER :=
  ⟨by decide, rfl, rfl⟩

/-- Claim C3 (amended): for every resource catalog (embedded as its
duplicate-free key list, as Go map keys are) all of whose names are
non-empty, resolving a requested list that is exactly `["*"]` in the
wildcard-permitted role succeeds with no error diagnostics and returns
exactly the name set of the catalog, sorted and duplicate-free. -/
theorem wildcard_expands_full_catalog (all : List String) (h1 : "" ∉ all) (h2 : all.Nodup) :
    doGlobResources [starName] false all = Except.ok (sortUnique all) ∧
    (sortUnique all).Pairwise strLtP ∧ (sortUnique all).Nodup ∧
    (∀ x, x ∈ sortUnique all ↔ x ∈ all) := by
  refine ⟨?_, sortUnique_pairwise all, nodup_of_pairwise (sortUnique_pairwise all), fun x => mem_sortUnique⟩
  have hl : doGlobResources [starName] false all = doGlobLoop all all [] [] := by
    simp [doGlobResources]
  rw [hl]
  have hx := @globLoop_exact all all [] [] []
    (fun x hx => ⟨fun he => h1 (he ▸ hx), hx⟩) h2 (fun x _ => List.not_mem_nil x)
  rw [List.append_nil] at hx
  rw [hx]
  simp [doGlobLoop]

/-- Claim C3 (witness): the amended theorem applied to the example catalog. -/
theorem wildcard_expands_full_catalog_wit :
    doGlobResources [starName] false catalog4 = Except.ok (sortUnique catalog4) :=
  (wildcard_expands_full_catalog catalog4 (by decide) (by decide)).1

/-- Claim C4: the skip list is resolved by the same algorithm with the
literal wildcard forbidden (its presence anywhere in the skip list yields
the user-classified wildcard-placement error), the normalized result is the
requested-list result minus the skip-list result as a set difference, and
in particular the catalog `{ec2, s3, iam.roles, iam.policies}` with
requested `["*"]` and skip `["iam.*"]` resolves to exactly `{ec2, s3}`. -/
theorem skipList_same_algorithm_subtraction :
    (∀ (skip all : List String), starName ∈ skip → doGlobResources skip true all = Except.error wildcardOnlyRequestedDiag) ∧
    (∀ (resources skip all u s : List String), doGlobResources resources false all = Except.ok u → doGlobResources skip true all = Except.ok s → doNormalizeResources resources skip all = (funkSubtract u s, [])) ∧
    doNormalizeResources [starName] (["iam.*"]) catalog4 = (["ec2", "s3"], []) := by
  refine ⟨?_, ?_, by decide⟩
  · intro skip all hmem
    have hc : skip.contains starName = true := by simpa using hmem
    show (if skip.contains starName = true then Except.error wildcardOnlyRequestedDiag else doGlobLoop all skip [] []) = Except.error wildcardOnlyRequestedDiag
    rw [if_pos hc]
  · intro resources skip all u s hu hs
    simp [doNormalizeResources, exceptToPair, hu, hs]

/-- Claim C4 (witness): both conditional parts applied at concrete inputs. -/
theorem skipList_same_algorithm_subtraction_wit :
    doGlobResources [starName, bres] true catalog4 = Except.error wildcardOnlyRequestedDiag ∧
    doNormalizeResources [ec2] ["s3"] catalog4 = (funkSubtract [ec2] ["s3"], []) :=
  ⟨skipList_same_algorithm_subtraction.1 [starName, bres] catalog4 (by decide),
   skipList_same_algorithm_subtraction.2.1 [ec2] ["s3"] catalog4 [ec2] ["s3"] (by decide) (by decide)⟩

/-- Claim C6 (counterexample): the list `["y", "y"]` contains the same entry
twice, but against the empty catalog normalization fails with the
user-classified does-not-exist diagnostic — not the duplicate diagnostic
promised by the claim — because the unknown first occurrence of "y" is
rejected before the duplicate is ever reached. -/
theorem duplicate_unknown_diag_cex :
    doGlobResources [yres, yres] false [] = Except.error (notExistDiag yres) ∧
    notExistDiag yres ≠ dupDiag yres :=
  ⟨rfl, by decide⟩

/-- Claim C6 (amended): a list containing an empty entry or a duplicate
entry always fails normalization with some user-classified diagnostic and
no partial result (the error side of the Except carries the nil list); the
specific empty-name (resp. duplicate) diagnostic is produced when the
offending entry is the first invalid entry scanned — in particular whenever
every earlier entry is a distinct non-empty exact catalog match. -/
theorem invalid_entries_user_error :
    (∀ (R all : List String) (wild : Bool), ("" ∈ R ∨ ¬ R.Nodup) → ∃ d, doGlobResources R wild all = Except.error d ∧ d.dtype = DiagType.USER) ∧
    (∀ (pre post all : List String), (∀ x ∈ pre, x ≠ "" ∧ x ∈ all) → pre.Nodup → doGlobResources (pre ++ "" :: post) false all = Except.error emptyNameDiag) ∧
    (∀ (pre post all : List String) (r : String), (∀ x ∈ pre, x ≠ "" ∧ x ∈ all) → pre.Nodup → r ∈ pre → doGlobResources (pre ++ r :: post) false all = Except.error (dupDiag r)) := by
  refine ⟨?_, ?_, ?_⟩
  · intro R all wild h
    have hloop : ∀ hres : Except Diag (List String), hres = doGlobLoop all R [] [] → doGlobResources R wild all = doGlobLoop all R [] [] → ∃ d, doGlobResources R wild all = Except.error d ∧ d.dtype = DiagType.USER := by
      intro hres hr hl
      cases hres2 : doGlobLoop all R [] [] with
      | error d => exact ⟨d, by rw [hl, hres2], globLoop_error_user _ _ _ _ hres2⟩
      | ok v =>
        exfalso
        rcases globLoop_ok_inv _ _ _ _ hres2 with ⟨he, hnd, _⟩
        rcases h with h | h
        · exact he h
        · exact h hnd
    cases wild with
    | true =>
      cases hc : R.contains starName with
      | true =>
        refine ⟨wildcardOnlyRequestedDiag, ?_, rfl⟩
        show (if R.contains starName = true then Except.error wildcardOnlyRequestedDiag else doGlobLoop all R [] []) = Except.error wildcardOnlyRequestedDiag
        rw [if_pos hc]
      | false =>
        exact hloop _ rfl (doGlob_wild_loop hc)
    | false =>
      by_cases hR : R = [starName]
      · exfalso
        subst hR
        rcases h with h | h
        · rcases List.mem_singleton.mp h with h
          exact absurd h.symm (by decide)
        · exact h (by decide)
      · exact hloop _ rfl (doGlob_nonwild_loop hR)
  · intro pre post all hall hnd
    have hne : pre ++ "" :: post ≠ [starName] := by
      intro hEq
      have hin : "" ∈ pre ++ "" :: post := by simp
      rw [hEq] at hin
      rcases List.mem_singleton.mp hin with h
      exact absurd h.symm (by decide)
    rw [doGlob_nonwild_loop hne, globLoop_exact pre _ [] [] hall hnd (fun x _ => List.not_mem_nil x)]
    simp [doGlobLoop]
  · intro pre post all r hall hnd hr
    have hpre_ne : pre ≠ [] := by
      intro h0
      rw [h0] at hr
      cases hr
    have hne : pre ++ r :: post ≠ [starName] := by
      intro hEq
      have hlen := congrArg List.length hEq
      simp at hlen
      have h0 : pre.length = 0 := by omega
      exact hpre_ne (List.length_eq_zero.mp h0)
    rw [doGlob_nonwild_loop hne, globLoop_exact pre _ [] [] hall hnd (fun x _ => List.not_mem_nil x)]
    have hrne : r ≠ "" := (hall r hr).1
    have hrseen : r ∈ pre.reverse ++ [] := by simp [hr]
    simp only [doGlobLoop]
    rw [if_neg hrne, if_pos hrseen]

/-- Claim C6 (witness): all three parts applied at concrete inputs. -/
theorem invalid_entries_user_error_wit :
    (∃ d, doGlobResources ["", bres] false catalog4 = Except.error d ∧ d.dtype = DiagType.USER) ∧
    doGlobResources ([ec2] ++ "" :: []) false catalog4 = Except.error emptyNameDiag ∧
    doGlobResources ([ec2] ++ ec2 :: []) false catalog4 = Except.error (dupDiag ec2) :=
  ⟨invalid_entries_user_error.1 ["", bres] catalog4 false (Or.inl (by decide)),
   invalid_entries_user_error.2.1 [ec2] [] catalog4 (by decide) (by decide),
   invalid_entries_user_error.2.2 [ec2] [] catalog4 ec2 (by decide) (by decide) (by decide)⟩

/-- Claim C8 (counterexample): over the catalog `{*, b}` — a catalog that
literally contains a resource named `*` — normalizing requested `["*"]` with
skip `["b"]` succeeds and returns `["*"]`, but re-normalizing that output
with an empty skip list triggers wildcard expansion again and returns
`["*", "b"]`, so doNormalizeResources is not idempotent as claimed. -/
theorem normalize_idempotence_cex :
    doNormalizeResources [starName] [bres] catalogStar = ([starName], []) ∧
    doNormalizeResources ((doNormalizeResources [starName] [bres] catalogStar).1) [] catalogStar = ([starName, bres], []) ∧
    ([starName] : List String) ≠ [starName, bres] :=
  ⟨by decide, by decide, by decide⟩

/-- Claim C8 (amended): over every catalog that does not contain a resource
literally named `*`, doNormalizeResources is idempotent — whenever it
succeeds (no diagnostics), re-running it on its own output with an empty
skip list succeeds and returns the same list. -/
theorem normalize_idempotent (resources skip all : List String) (hstar : starName ∉ all) (hok : (doNormalizeResources resources skip all).2 = []) :
    doNormalizeResources (doNormalizeResources resources skip all).1 [] all = ((doNormalizeResources resources skip all).1, []) := by
  cases hu : doGlobResources resources false all with
  | error d =>
    exfalso
    have hne : (doNormalizeResources resources skip all).2 ≠ [] := by
      simp [doNormalizeResources, exceptToPair, hu]
    exact hne hok
  | ok u =>
    cases hs : doGlobResources skip true all with
    | error d =>
      exfalso
      have hne : (doNormalizeResources resources skip all).2 ≠ [] := by
        simp [doNormalizeResources, exceptToPair, hu, hs]
      exact hne hok
    | ok s =>
      have hout : (doNormalizeResources resources skip all).1 = funkSubtract u s := by
        simp [doNormalizeResources, exceptToPair, hu, hs]
      rw [hout]
      have hsorted : (funkSubtract u s).Pairwise strLtP := (doGlob_ok_sorted hu).filter _
      have hmem : ∀ x ∈ funkSubtract u s, x ∈ all ∧ x ≠ "" :=
        fun x hx => doGlob_ok_mem hu x (List.mem_of_mem_filter hx)
      have hne2 : funkSubtract u s ≠ [starName] := by
        intro h0
        have hstar2 : starName ∈ funkSubtract u s := by
          rw [h0]
          exact List.mem_singleton_self starName
        exact hstar (hmem starName hstar2).1
      have hrerun : doGlobResources (funkSubtract u s) false all = Except.ok (funkSubtract u s) := by
        rw [doGlob_nonwild_loop hne2]
        have hx := @globLoop_exact all (funkSubtract u s) [] [] []
          (fun x hx => ⟨(hmem x hx).2, (hmem x hx).1⟩) (nodup_of_pairwise hsorted) (fun x _ => List.not_mem_nil x)
        rw [List.append_nil] at hx
        rw [hx]
        simp [doGlobLoop, sortUnique_eq_self hsorted]
      have hskip : doGlobResources [] true all = Except.ok [] := rfl
      simp [doNormalizeResources, exceptToPair, hrerun, hskip, funkSubtract_nil]

/-- Claim C8 (witness): the amended theorem applied to a concrete
successful normalization. -/
theorem normalize_idempotent_wit :
    doNormalizeResources ((doNormalizeResources [ec2] [] [ec2]).1) [] [ec2] = ((doNormalizeResources [ec2] [] [ec2]).1, []) :=
  normalize_idempotent [ec2] [] [ec2] (by decide) (by decide)

/-- Claim C5 (counterexample): the pattern `a.*b.*` is of the claimed valid
form — a non-empty prefix `a.*b` followed by the substring `.*` at the very
end — and the catalog name `a.*b.x` begins with `a.*b.`, yet matchResourceGlob
rejects the pattern with the syntax error instead of returning the match,
because the first occurrence of `.*` (at position 1) is not at the end. -/
theorem glob_form_middle_dotStar_cex :
    preMid ≠ "" ∧
    patMid.data = preMid.data ++ dotStar ∧
    (preMid.data ++ ['.']).isPrefixOf keyMid.data = true ∧
    matchResourceGlob patMid [keyMid] = Except.error invalidWildEndDiag :=
  ⟨by decide, by decide, by decide, rfl⟩

/-- Claim C5 (amended): for every entry that is not empty, not already seen,
not an exact catalog match and not the literal wildcard: it is treated as a
glob that is valid exactly when its first occurrence of the substring `.*`
is at the very end with a non-empty prefix — equivalently, when it is
`p ++ ".*"` for a non-empty `p` that itself contains no `.*`.  A valid glob
matches exactly the catalog names beginning with the dotted prefix (the
trailing dot included in the match test), a valid glob with zero matches
yields the user-classified does-not-exist error, and any other entry
containing `*` yields a user-classified syntax error. -/
theorem glob_entry_characterization (r : String) (all rest seen res : List String)
    (h1 : r ≠ "") (h2 : r ∉ seen) (h3 : r ∉ all) (h4 : r ≠ starName) :
    (∀ p : List Char, r.data = p ++ dotStar → p ≠ [] → hasDotStar p = false →
      matchResourceGlob r all = Except.ok (globFilter p all) ∧
      (globFilter p all = [] → doGlobLoop all (r :: rest) seen res = Except.error (notExistDiag r)) ∧
      (globFilter p all ≠ [] → doGlobLoop all (r :: rest) seen res = doGlobLoop all rest (r :: seen) (res ++ globFilter p all)) ∧
      (notExistDiag r).dtype = DiagType.USER) ∧
    (r.data.contains '*' = true → (∀ p : List Char, r.data = p ++ dotStar → p = [] ∨ hasDotStar p = true) →
      ∃ d, matchResourceGlob r all = Except.error d ∧ d.dtype = DiagType.USER ∧ d.summary = invalidWildSummary ∧ doGlobLoop all (r :: rest) seen res = Except.error d) := by
  constructor
  · intro p hdecomp hpne hpds
    have hidx : idxOfSub dotStar r.data = some p.length := by
      rw [hdecomp]
      exact idx_append_dotStar p hpds
    have hplen : 0 < p.length := List.length_pos.mpr hpne
    have hrlen : r.data.length = p.length + 2 := by
      rw [hdecomp]
      simp [dotStar]
    have hmatch : matchResourceGlob r all = Except.ok (globFilter p all) := by
      simp only [matchResourceGlob, hidx]
      rw [if_pos hplen, if_neg (by omega)]
      have htake : r.data.take (p.length + 1) = p ++ ['.'] := by
        rw [hdecomp]
        exact take_append_dot p
      rw [htake]
      rfl
    refine ⟨hmatch, ?_, ?_, rfl⟩
    · intro hempty
      simp only [doGlobLoop]
      rw [if_neg h1, if_neg h2, if_neg h3, if_neg h4, hmatch, hempty]
      rfl
    · intro hnonempty
      have hie : (globFilter p all).isEmpty = false := by
        cases hgf : globFilter p all with
        | nil => exact absurd hgf hnonempty
        | cons a as => rfl
      simp only [doGlobLoop]
      rw [if_neg h1, if_neg h2, if_neg h3, if_neg h4, hmatch]
      simp [hie]
  · intro hcont hnoform
    cases hidx : idxOfSub dotStar r.data with
    | none =>
      have hm : matchResourceGlob r all = Except.error invalidWildUseDiag := by
        simp only [matchResourceGlob, hidx]
        rw [if_pos hcont]
      exact ⟨invalidWildUseDiag, hm, rfl, rfl, globLoop_glob_error rest seen res h1 h2 h3 h4 hm⟩
    | some w =>
      by_cases hw : 0 < w
      · by_cases hwe : w = r.data.length - 2
        · exfalso
          rcases idx_end_decomp r.data w hidx hw hwe with ⟨p, hp1, hp2, hp3, hp4⟩
          rcases hnoform p hp1 with h0 | h0
          · exact hp4 h0
          · rw [hp3] at h0
            exact Bool.false_ne_true h0
        · have hm : matchResourceGlob r all = Except.error invalidWildEndDiag := by
            simp only [matchResourceGlob, hidx]
            rw [if_pos hw, if_pos hwe]
          exact ⟨invalidWildEndDiag, hm, rfl, rfl, globLoop_glob_error rest seen res h1 h2 h3 h4 hm⟩
      · have hm : matchResourceGlob r all = Except.error invalidWildUseDiag := by
          simp only [matchResourceGlob, hidx]
          rw [if_neg hw]
        exact ⟨invalidWildUseDiag, hm, rfl, rfl, globLoop_glob_error rest seen res h1 h2 h3 h4 hm⟩

/-- Claim C5 (witness): the characterization applied to the spec's example
glob `foo.*` over the catalog `{foo.a, foo.b, bar.c}`. -/
theorem glob_entry_characterization_wit :
    matchResourceGlob fooGlob cat3 = Except.ok (globFilter fooDataP cat3) ∧
    doGlobLoop cat3 [fooGlob] [] [] = doGlobLoop cat3 [] [fooGlob] ([] ++ globFilter fooDataP cat3) ∧
    globFilter fooDataP cat3 = ["foo.a", "foo.b"] := by
  have h := glob_entry_characterization fooGlob cat3 [] [] [] (by decide) (by decide) (by decide) (by decide)
  have h1 := h.1 fooDataP (by decide) (by decide) (by decide)
  exact ⟨h1.1, h1.2.2.1 (by decide), by decide⟩

/-! ## Lemmas about stream consumption and the provider runner -/

theorem consumeStream_err (cb : Bool) (pn pa pv : String) (e : GoErr) : ∀ (rs : List StreamResp) (s : ProviderFetchSummary) (d : List Diag) (u : List FetchUpdate),
    consumeStream cb pn pa pv rs (StreamEnd.err e) s d u =
      (let acc := consumeStream cb pn pa pv rs StreamEnd.eof s d u
       ({ acc.1 with Status := if IsCancelation e then FetchStatus.FetchCanceled else FetchStatus.FetchFailed },
        acc.2.1 ++ [if IsCancelation e then CancelationDiag e else fromErr e DiagType.INTERNAL],
        if cb then acc.2.2 ++ [{ Name := pn, Alias := pa, Version := pv, FinishedResources := []
                               , ResourceCount := 0, Error := e.msg, DiagnosticCount := acc.2.1.length }] else acc.2.2)) := by
  intro rs
  induction rs with
  | nil =>
    intro s d u
    cases hc : IsCancelation e with
    | true => cases cb <;> simp [consumeStream, hc]
    | false => cases cb <;> simp [consumeStream, hc]
  | cons resp rest ih =>
    intro s d u
    simp only [consumeStream]
    exact ih _ _ _

theorem consumeStream_eof_status (cb : Bool) (pn pa pv : String) : ∀ (rs : List StreamResp) (s : ProviderFetchSummary) (d : List Diag) (u : List FetchUpdate),
    (consumeStream cb pn pa pv rs StreamEnd.eof s d u).1.Status = s.Status := by
  intro rs
  induction rs with
  | nil => intro s d u; rfl
  | cons resp rest ih =>
    intro s d u
    simp only [consumeStream]
    exact ih _ _ _

theorem consumeStream_status (cb : Bool) (pn pa pv : String) : ∀ (rs : List StreamResp) (en : StreamEnd) (s : ProviderFetchSummary) (d : List Diag) (u : List FetchUpdate),
    (consumeStream cb pn pa pv rs en s d u).1.Status = s.Status ∨
    (consumeStream cb pn pa pv rs en s d u).1.Status = FetchStatus.FetchCanceled ∨
    (consumeStream cb pn pa pv rs en s d u).1.Status = FetchStatus.FetchFailed := by
  intro rs
  induction rs with
  | nil =>
    intro en s d u
    cases en with
    | eof => exact Or.inl rfl
    | err e =>
      cases hc : IsCancelation e with
      | true =>
        refine Or.inr (Or.inl ?_)
        simp [consumeStream, hc]
      | false =>
        refine Or.inr (Or.inr ?_)
        simp [consumeStream, hc]
  | cons resp rest ih =>
    intro en s d u
    simp only [consumeStream]
    exact ih _ _ _ _

theorem consumeStream_fields (cb : Bool) (pn pa pv : String) : ∀ (rs : List StreamResp) (en : StreamEnd) (s : ProviderFetchSummary) (d : List Diag) (u : List FetchUpdate),
    (consumeStream cb pn pa pv rs en s d u).1.Name = s.Name ∧
    (consumeStream cb pn pa pv rs en s d u).1.Alias = s.Alias := by
  intro rs
  induction rs with
  | nil =>
    intro en s d u
    cases en with
    | eof => exact ⟨rfl, rfl⟩
    | err e =>
      cases hc : IsCancelation e with
      | true => constructor <;> simp [consumeStream, hc]
      | false => constructor <;> simp [consumeStream, hc]
  | cons resp rest ih =>
    intro en s d u
    simp only [consumeStream]
    exact ih _ _ _ _

theorem executeFetch_status_cases (w : PluginWorld) (info : ProviderInfo) (cb : Bool) :
    (executeFetch w info cb).1.Status = FetchStatus.FetchFailed ∨
    (executeFetch w info cb).1.Status = FetchStatus.FetchCanceled ∨
    (executeFetch w info cb).1.Status = FetchStatus.FetchFinished := by
  simp only [executeFetch]
  split_ifs with h1
  · exact Or.inl rfl
  · cases w.fetchStart with
    | some e => exact Or.inl rfl
    | none =>
      rcases consumeStream_status cb info.name info.aliasName w.version w.stream w.streamEnd (initialSummary w info) (normalizeResources w info).2 [] with h | h | h
      · exact Or.inr (Or.inr h)
      · exact Or.inr (Or.inl h)
      · exact Or.inl h

theorem executeFetch_fields (w : PluginWorld) (info : ProviderInfo) (cb : Bool) :
    (executeFetch w info cb).1.Name = info.name ∧ (executeFetch w info cb).1.Alias = info.aliasName := by
  simp only [executeFetch]
  split_ifs with h1
  · exact ⟨rfl, rfl⟩
  · cases w.fetchStart with
    | some e => exact ⟨rfl, rfl⟩
    | none =>
      exact consumeStream_fields cb info.name info.aliasName w.version w.stream w.streamEnd (initialSummary w info) (normalizeResources w info).2 []

theorem runProviderFetch_fields (w : PluginWorld) (info : ProviderInfo) (cb : Bool) (s : ProviderFetchSummary) (d : List Diag) (u : List FetchUpdate) (h : runProviderFetch w info cb = (some s, d, u)) :
    s.Name = info.name ∧ s.Alias = info.aliasName := by
  cases hce : w.createErr with
  | some e => simp [runProviderFetch, hce] at h
  | none =>
    cases hcfg : w.configure with
    | error e =>
      simp only [runProviderFetch, hce, hcfg] at h
      split_ifs at h with hc <;>
        (simp only [Prod.mk.injEq, Option.some.injEq] at h
         rcases h with ⟨h1, -, -⟩
         rw [← h1]
         exact ⟨rfl, rfl⟩)
    | ok cfgDiags =>
      simp only [runProviderFetch, hce, hcfg] at h
      split_ifs at h with h2
      · simp only [Prod.mk.injEq, Option.some.injEq] at h
        rcases h with ⟨h1, -, -⟩
        rw [← h1]
        exact ⟨rfl, rfl⟩
      · simp only [Prod.mk.injEq, Option.some.injEq] at h
        rcases h with ⟨h1, -, -⟩
        rw [← h1]
        exact executeFetch_fields w info cb

/-! ## Lemmas about the orchestrator's drain loop -/

theorem updAssoc_fresh {α : Type} : ∀ (m : List (String × α)) (k : String) (v : α), k ∉ m.map Prod.fst → updAssoc m k v = m ++ [(k, v)] := by
  intro m
  induction m with
  | nil => intro k v _; rfl
  | cons kv rest ih =>
    intro k v hk
    have hne : kv.1 ≠ k := by
      intro he
      exact hk (by simp [he])
    have hrest : k ∉ rest.map Prod.fst := by
      intro hm
      exact hk (by simp [hm])
    cases kv with
    | mk k' v' =>
      simp only [updAssoc, if_neg hne, List.cons_append]
      rw [ih k v hrest]

theorem sumU64_eq_mod : ∀ (l : List Nat), sumU64 l = l.sum % U64 := by
  intro l
  induction l with
  | nil => rfl
  | cons a as ih =>
    show (a + sumU64 as) % U64 = (a + as.sum) % U64
    rw [ih]
    simp [Nat.add_mod]

theorem aggregate_lt : ∀ (rs : List (Option ProviderFetchSummary × List Diag)) (m : List (String × ProviderFetchSummary)) (t : Nat) (ds : List Diag) (m' : List (String × ProviderFetchSummary)) (t' : Nat) (ds' : List Diag),
    aggregateResults rs m t ds = some (m', t', ds') → t < U64 → t' < U64 := by
  intro rs
  induction rs with
  | nil =>
    intro m t ds m' t' ds' h ht
    simp only [aggregateResults, Option.some.injEq, Prod.mk.injEq] at h
    rcases h with ⟨-, h2, -⟩
    rw [← h2]
    exact ht
  | cons x rest ih =>
    intro m t ds m' t' ds' h ht
    cases x with
    | mk xs xd =>
      cases xs with
      | none => simp [aggregateResults] at h
      | some s2 =>
        simp only [aggregateResults] at h
        exact ih _ _ _ _ _ _ h (Nat.mod_lt _ (by norm_num [U64]))

theorem aggregate_invariant : ∀ (rs : List (Option ProviderFetchSummary × List Diag)) (m : List (String × ProviderFetchSummary)) (t : Nat) (ds : List Diag) (m' : List (String × ProviderFetchSummary)) (t' : Nat) (ds' : List Diag),
    aggregateResults rs m t ds = some (m', t', ds') →
    ((rs.filterMap Prod.fst).map ProviderFetchSummary.displayString).Nodup →
    (∀ s2 ∈ rs.filterMap Prod.fst, s2.displayString ∉ m.map Prod.fst) →
    Nat.ModEq U64 (t + (m'.map (fun kv => kv.2.TotalResourcesFetched)).sum) (t' + (m.map (fun kv => kv.2.TotalResourcesFetched)).sum) := by
  intro rs
  induction rs with
  | nil =>
    intro m t ds m' t' ds' h _ _
    simp only [aggregateResults, Option.some.injEq, Prod.mk.injEq] at h
    rcases h with ⟨h1, h2, -⟩
    rw [← h1, ← h2]
  | cons x rest ih =>
    intro m t ds m' t' ds' h hnd hfresh
    cases x with
    | mk xs xd =>
      cases xs with
      | none => simp [aggregateResults] at h
      | some s2 =>
        simp only [aggregateResults] at h
        have hs2 : s2 ∈ (((some s2, xd) :: rest).filterMap Prod.fst) := by simp
        have hkey : s2.displayString ∉ m.map Prod.fst := hfresh s2 hs2
        rw [updAssoc_fresh m s2.displayString s2 hkey] at h
        have hfm : ((some s2, xd) :: rest).filterMap Prod.fst = s2 :: rest.filterMap Prod.fst := by simp
        rw [hfm] at hnd
        rcases List.pairwise_cons.mp hnd with ⟨hhead, htail⟩
        have hih := ih _ _ _ _ _ _ h htail ?hfresh2
        case hfresh2 =>
          intro s3 hs3
          intro hmem
          rw [List.map_append] at hmem
          rcases List.mem_append.mp hmem with hm | hm
          · exact hfresh s3 (by rw [hfm]; exact List.mem_cons_of_mem s2 hs3) hm
          · simp at hm
            exact hhead s3.displayString (List.mem_map_of_mem _ hs3) hm.symm
        have hm1sum : ((m ++ [(s2.displayString, s2)]).map (fun kv => kv.2.TotalResourcesFetched)).sum = (m.map (fun kv => kv.2.TotalResourcesFetched)).sum + s2.TotalResourcesFetched := by
          rw [List.map_append, List.sum_append]
          simp
        rw [hm1sum] at hih
        have hmod : Nat.ModEq U64 ((t + s2.TotalResourcesFetched) % U64 + (m'.map (fun kv => kv.2.TotalResourcesFetched)).sum) (t + s2.TotalResourcesFetched + (m'.map (fun kv => kv.2.TotalResourcesFetched)).sum) :=
          Nat.ModEq.add_right _ (Nat.mod_modEq _ _)
        have hchain : Nat.ModEq U64 (t + (m'.map (fun kv => kv.2.TotalResourcesFetched)).sum + s2.TotalResourcesFetched) (t' + (m.map (fun kv => kv.2.TotalResourcesFetched)).sum + s2.TotalResourcesFetched) := by
          have h1 : t + (m'.map (fun kv => kv.2.TotalResourcesFetched)).sum + s2.TotalResourcesFetched = t + s2.TotalResourcesFetched + (m'.map (fun kv => kv.2.TotalResourcesFetched)).sum := by ring
          have h2 : t' + (m.map (fun kv => kv.2.TotalResourcesFetched)).sum + s2.TotalResourcesFetched = t' + ((m.map (fun kv => kv.2.TotalResourcesFetched)).sum + s2.TotalResourcesFetched) := by ring
          rw [h1, h2]
          exact (hmod.symm.trans hih)
        exact Nat.ModEq.add_right_cancel' _ hchain

theorem runProviderEntry_display (hd cb : Bool) (p : ProvEntry) (s2 : ProviderFetchSummary) (d : List Diag) (h : runProviderEntry hd cb p = some (some s2, d)) : s2.displayString = p.display := by
  have hrun : (runProviderFetch p.world p.info cb).1 = some s2 := by
    simp only [runProviderEntry] at h
    split_ifs at h with hdl
    · rw [Option.some.injEq, Prod.mk.injEq] at h
      exact h.1
    · cases hr : (runProviderFetch p.world p.info cb).1 with
      | none => rw [hr] at h; simp at h
      | some s3 =>
        rw [hr] at h
        cases hsv : p.saveErr with
        | some e =>
          rw [hsv] at h
          simp only [Option.some.injEq, Prod.mk.injEq] at h
          rw [h.1]
        | none =>
          rw [hsv] at h
          simp only [Option.some.injEq, Prod.mk.injEq] at h
          rw [h.1]
  have hful : runProviderFetch p.world p.info cb = (some s2, (runProviderFetch p.world p.info cb).2.1, (runProviderFetch p.world p.info cb).2.2) := by
    rw [← hrun]
  rcases runProviderFetch_fields _ _ _ _ _ _ hful with ⟨hn, ha⟩
  unfold ProviderFetchSummary.displayString ProvEntry.display
  rw [hn, ha]
  rfl

theorem pipeline_displays (hd cb : Bool) : ∀ (ps : List ProvEntry) (rs : List (Option ProviderFetchSummary × List Diag)),
    sequenceOpt (ps.map (runProviderEntry hd cb)) = some rs →
    List.Sublist ((rs.filterMap Prod.fst).map ProviderFetchSummary.displayString) (ps.map ProvEntry.display) := by
  intro ps
  induction ps with
  | nil =>
    intro rs h
    simp only [List.map_nil, sequenceOpt, Option.some.injEq] at h
    rw [← h]
    simp
  | cons p ps' ih =>
    intro rs h
    simp only [List.map_cons] at h
    cases hp : runProviderEntry hd cb p with
    | none => rw [hp] at h; simp [sequenceOpt] at h
    | some a =>
      rw [hp] at h
      simp only [sequenceOpt] at h
      cases hseq : sequenceOpt (ps'.map (runProviderEntry hd cb)) with
      | none => rw [hseq] at h; simp at h
      | some rs' =>
        rw [hseq] at h
        simp only [Option.map_some', Option.some.injEq] at h
        rw [← h]
        cases a with
        | mk a1 a2 =>
          cases a1 with
          | none =>
            simp only [List.filterMap_cons]
            exact List.Sublist.cons _ (ih rs' hseq)
          | some s2 =>
            simp only [List.filterMap_cons, List.map_cons]
            rw [runProviderEntry_display hd cb p s2 a2 hp]
            exact List.Sublist.cons₂ _ (ih rs' hseq)

theorem runProviderFetch_status_cases (w : PluginWorld) (info : ProviderInfo) (cb : Bool) (s : ProviderFetchSummary) (d : List Diag) (u : List FetchUpdate) (h : runProviderFetch w info cb = (some s, d, u)) :
    s.Status = FetchStatus.FetchFailed ∨ s.Status = FetchStatus.FetchConfigureFailed ∨ s.Status = FetchStatus.FetchCanceled ∨ s.Status = FetchStatus.FetchFinished := by
  cases hce : w.createErr with
  | some e => simp [runProviderFetch, hce] at h
  | none =>
    cases hcfg : w.configure with
    | error e =>
      simp only [runProviderFetch, hce, hcfg] at h
      split_ifs at h with hc
      · simp only [Prod.mk.injEq, Option.some.injEq] at h
        rcases h with ⟨h1, -, -⟩
        rw [← h1]
        exact Or.inr (Or.inr (Or.inl rfl))
      · simp only [Prod.mk.injEq, Option.some.injEq] at h
        rcases h with ⟨h1, -, -⟩
        rw [← h1]
        exact Or.inr (Or.inl rfl)
    | ok cfgDiags =>
      simp only [runProviderFetch, hce, hcfg] at h
      split_ifs at h with h2
      · simp only [Prod.mk.injEq, Option.some.injEq] at h
        rcases h with ⟨h1, -, -⟩
        rw [← h1]
        exact Or.inr (Or.inl rfl)
      · simp only [Prod.mk.injEq, Option.some.injEq] at h
        rcases h with ⟨h1, -, -⟩
        rw [← h1]
        rcases executeFetch_status_cases w info cb with h3 | h3 | h3
        · exact Or.inl h3
        · exact Or.inr (Or.inr (Or.inl h3))
        · exact Or.inr (Or.inr (Or.inr h3))

/-! ## Claim theorems: orchestrator and runner -/

/-- Claim C1 (failing input): a single attempted provider whose plugin
instantiation fails.  The runner returns a diagnostic and a nil summary for
that provider's slot — and Fetch then dereferences the nil summary (when
deriving the persisted record, or when keying the response map by
ps.summary.String()), so the call panics and no FetchResponse containing an
entry for the attempted provider is ever produced. -/
theorem fetch_nilSummary_panic : Fetch fw0 [badProv] false = FetchOutcome.panic := by decide

/-- Claim C2 (counterexample): a Fetch over the same successful provider
listed twice returns a response whose display-keyed map holds one summary
with total 1 while TotalFetched is 2, so TotalFetched differs from the sum
of TotalResourcesFetched over the response map. -/
theorem fetch_totalFetched_mismatch_cex :
    Fetch fw0 [okProv, okProv] false = FetchOutcome.ret (some dupResp) [] ∧
    dupResp.TotalFetched = 2 ∧ responseSummarySum dupResp = 1 ∧
    dupResp.TotalFetched ≠ responseSummarySum dupResp :=
  ⟨by decide, rfl, rfl, by decide⟩

/-- Claim C2 (amended): for every FetchResponse returned by Fetch whose
attempted providers carry pairwise distinct display strings (the uniqueness
the config layer guarantees), TotalFetched equals the uint64 sum of
TotalResourcesFetched over all summaries in the response map. -/
theorem fetch_totalFetched_eq_sum (fw : FetchWorld) (providers : List ProvEntry) (cb : Bool) (r : FetchResponse) (ds : List Diag)
    (hret : Fetch fw providers cb = FetchOutcome.ret (some r) ds)
    (hnd : ((providers.filter (fun p => !p.resources.isEmpty)).map ProvEntry.display).Nodup) :
    r.TotalFetched = responseSummarySum r := by
  cases hdsn : fw.dsnResult with
  | error e => simp [Fetch, hdsn] at hret
  | ok dsn =>
    simp only [Fetch, hdsn] at hret
    split at hret
    next hseq => simp at hret
    next rs hseq =>
      split at hret
      next hagg => simp at hret
      next mtd hagg =>
        rcases mtd with ⟨m', t', ds'⟩
        simp only [FetchOutcome.ret.injEq, Option.some.injEq] at hret
        rcases hret with ⟨hr1, -⟩
        have hsub := pipeline_displays fw.hasDeadline cb _ rs hseq
        have hnd2 : ((rs.filterMap Prod.fst).map ProviderFetchSummary.displayString).Nodup := hsub.nodup hnd
        have hfresh : ∀ s2 ∈ rs.filterMap Prod.fst, s2.displayString ∉ ([] : List (String × ProviderFetchSummary)).map Prod.fst := by simp
        have hinv := aggregate_invariant rs [] 0 _ m' t' ds' hagg hnd2 hfresh
        have hlt : t' < U64 := aggregate_lt rs [] 0 _ m' t' ds' hagg (by norm_num [U64])
        rw [← hr1]
        show t' = responseSummarySum { ProviderFetchSummary := m', TotalFetched := t', TelemetryEvents := (FilterTelemetryEvents ds').1 }
        unfold responseSummarySum
        rw [sumU64_eq_mod]
        have h0 : (0 + (m'.map (fun kv => kv.2.TotalResourcesFetched)).sum) % U64 = (t' + 0) % U64 := hinv
        rw [Nat.zero_add, Nat.add_zero] at h0
        rw [Nat.mod_eq_of_lt hlt] at h0
        exact h0.symm

/-- Claim C2 (witness): the amended theorem applied to a fetch over one
successful provider. -/
theorem fetch_totalFetched_eq_sum_wit : okResp.TotalFetched = responseSummarySum okResp :=
  fetch_totalFetched_eq_sum fw0 [okProv] false okResp [] (by decide) (by decide)

/-- Claim C7: whenever the configure RPC returns an error, the provider's
status is Canceled with the cancellation-specific diagnostic exactly when
the cancellation predicate recognizes the error, and ConfigureFailed with
an INTERNAL diagnostic wrapping the error otherwise; whenever a stream
receive returns an error, the result is the accumulated (partial) summary
of the messages received so far with status Canceled or Failed by the same
predicate, the matching diagnostic appended, and — when a callback is
supplied — the callback first invoked with the error text. -/
theorem rpc_error_cancellation_dichotomy :
    (∀ (w : PluginWorld) (info : ProviderInfo) (cb : Bool) (e : GoErr), w.createErr = none → w.configure = Except.error e →
      runProviderFetch w info cb =
        (some (cfgSummary w info (if IsCancelation e then FetchStatus.FetchCanceled else FetchStatus.FetchConfigureFailed)),
         [if IsCancelation e then CancelationDiag e else fromErr e DiagType.INTERNAL], [])) ∧
    (∀ (cb : Bool) (pn pa pv : String) (e : GoErr) (rs : List StreamResp) (s : ProviderFetchSummary) (d : List Diag) (u : List FetchUpdate),
      consumeStream cb pn pa pv rs (StreamEnd.err e) s d u =
        (let acc := consumeStream cb pn pa pv rs StreamEnd.eof s d u
         ({ acc.1 with Status := if IsCancelation e then FetchStatus.FetchCanceled else FetchStatus.FetchFailed },
          acc.2.1 ++ [if IsCancelation e then CancelationDiag e else fromErr e DiagType.INTERNAL],
          if cb then acc.2.2 ++ [{ Name := pn, Alias := pa, Version := pv, FinishedResources := []
                                 , ResourceCount := 0, Error := e.msg, DiagnosticCount := acc.2.1.length }] else acc.2.2))) := by
  constructor
  · intro w info cb e hce hcfg
    simp only [runProviderFetch, hce, hcfg]
    cases hc : IsCancelation e <;> simp [hc]
  · intro cb pn pa pv e rs s d u
    exact consumeStream_err cb pn pa pv e rs s d u

/-- Claim C7 (witness): both parts at concrete inputs — a non-cancellation
configure failure and a cancellation stream error. -/
theorem rpc_error_cancellation_dichotomy_wit :
    runProviderFetch cfgErrWorld okProv.info false =
      (some (cfgSummary cfgErrWorld okProv.info FetchStatus.FetchConfigureFailed), [fromErr plainErr DiagType.INTERNAL], []) ∧
    consumeStream false ("aws") ("") ("v1") [] (StreamEnd.err cancelErr) (initialSummary okWorld okProv.info) [] [] =
      ({ initialSummary okWorld okProv.info with Status := FetchStatus.FetchCanceled }, [CancelationDiag cancelErr], []) := by
  constructor
  · have h := rpc_error_cancellation_dichotomy.1 cfgErrWorld okProv.info false plainErr rfl rfl
    simpa using h
  · have h := rpc_error_cancellation_dichotomy.2 false ("aws") ("") ("v1") cancelErr [] (initialSummary okWorld okProv.info) [] []
    simpa using h

/-- Claim C9: every summary produced by runProviderFetch carries one of the
four reachable terminal statuses and never FetchPartial (which the status
enum declares but no execution path assigns); executeFetch likewise never
produces FetchPartial; and a stream that ends with the end-of-stream marker
always yields status Finished — whatever per-resource errors or diagnostics
were received in the stream — provided normalization and the FetchResources
call succeeded. -/
theorem fetch_status_terminal_values :
    (∀ (w : PluginWorld) (info : ProviderInfo) (cb : Bool) (s : ProviderFetchSummary) (d : List Diag) (u : List FetchUpdate),
      runProviderFetch w info cb = (some s, d, u) →
      s.Status ≠ FetchStatus.FetchPartial ∧
      (s.Status = FetchStatus.FetchFailed ∨ s.Status = FetchStatus.FetchConfigureFailed ∨ s.Status = FetchStatus.FetchCanceled ∨ s.Status = FetchStatus.FetchFinished)) ∧
    (∀ (w : PluginWorld) (info : ProviderInfo) (cb : Bool),
      (executeFetch w info cb).1.Status ≠ FetchStatus.FetchPartial) ∧
    (∀ (w : PluginWorld) (info : ProviderInfo) (cb : Bool),
      w.streamEnd = StreamEnd.eof → hasErrorsB (normalizeResources w info).2 = false → w.fetchStart = none →
      (executeFetch w info cb).1.Status = FetchStatus.FetchFinished) := by
  refine ⟨?_, ?_, ?_⟩
  · intro w info cb s d u h
    have hc := runProviderFetch_status_cases w info cb s d u h
    refine ⟨?_, hc⟩
    rcases hc with h2 | h2 | h2 | h2 <;> simp [h2]
  · intro w info cb
    rcases executeFetch_status_cases w info cb with h2 | h2 | h2 <;> simp [h2]
  · intro w info cb heof hnorm hfs
    simp only [executeFetch, hnorm, hfs, heof, Bool.false_eq_true, if_false]
    exact consumeStream_eof_status cb info.name info.aliasName w.version w.stream (initialSummary w info) (normalizeResources w info).2 []

/-- Claim C9 (witness): the first and third parts at the successful world. -/
theorem fetch_status_terminal_values_wit :
    okSummary.Status ≠ FetchStatus.FetchPartial ∧
    (executeFetch okWorld okProv.info false).1.Status = FetchStatus.FetchFinished :=
  ⟨(fetch_status_terminal_values.1 okWorld okProv.info false okSummary [] [] (by decide)).1,
   fetch_status_terminal_values.2.2 okWorld okProv.info false rfl (by decide) rfl⟩

/-- Claim C10: ProviderFetchSummary.Diagnostics aggregates only the
diagnostics stored inside FetchedResources entries, so a summary with an
empty resource map has empty aggregated diagnostics; a provider failing at
configuration (non-cancellation) or at normalization produces such a
summary while the fetch-level diagnostics do contain errors, its persisted
record's isSuccess flag is true, and a response all of whose summaries have
empty resource maps reports HasErrors = false. -/
theorem summary_diagnostics_only_fetched :
    (∀ p : ProviderFetchSummary, p.FetchedResources = [] → p.Diagnostics = []) ∧
    (∀ (w : PluginWorld) (info : ProviderInfo) (cb : Bool) (e : GoErr), w.createErr = none → w.configure = Except.error e → IsCancelation e = false →
      runProviderFetch w info cb = (some (cfgSummary w info FetchStatus.FetchConfigureFailed), [fromErr e DiagType.INTERNAL], []) ∧
      (cfgSummary w info FetchStatus.FetchConfigureFailed).FetchedResources = [] ∧
      (createFetchSummary (cfgSummary w info FetchStatus.FetchConfigureFailed)).isSuccess = true ∧
      hasErrorsB [fromErr e DiagType.INTERNAL] = true) ∧
    (∀ (w : PluginWorld) (info : ProviderInfo) (cb : Bool), hasErrorsB (normalizeResources w info).2 = true →
      executeFetch w info cb = ({ initialSummary w info with Status := FetchStatus.FetchFailed }, (normalizeResources w info).2, []) ∧
      ({ initialSummary w info with Status := FetchStatus.FetchFailed } : ProviderFetchSummary).FetchedResources = [] ∧
      (createFetchSummary { initialSummary w info with Status := FetchStatus.FetchFailed }).isSuccess = true) ∧
    (∀ r : FetchResponse, (∀ kv ∈ r.ProviderFetchSummary, kv.2.FetchedResources = []) → r.HasErrors = false) := by
  refine ⟨?_, ?_, ?_, ?_⟩
  · intro p h
    unfold ProviderFetchSummary.Diagnostics
    rw [h]
    rfl
  · intro w info cb e hce hcfg hc
    refine ⟨?_, rfl, rfl, rfl⟩
    simp [runProviderFetch, hce, hcfg, hc]
  · intro w info cb hnorm
    refine ⟨?_, rfl, rfl⟩
    simp [executeFetch, hnorm]
  · intro r h
    simp only [FetchResponse.HasErrors, List.any_eq_false]
    intro kv hkv
    have h2 : kv.2.Diagnostics = [] := by
      unfold ProviderFetchSummary.Diagnostics
      rw [h kv hkv]
      rfl
    rw [h2]
    simp [hasErrorsB]

/-- Claim C10 (witness): the configuration-failure part and the
response-level part at concrete inputs. -/
theorem summary_diagnostics_only_fetched_wit :
    (createFetchSummary (cfgSummary cfgErrWorld okProv.info FetchStatus.FetchConfigureFailed)).isSuccess = true ∧
    hasErrorsB [fromErr plainErr DiagType.INTERNAL] = true ∧
    FetchResponse.HasErrors { ProviderFetchSummary := [("aws", cfgSummary cfgErrWorld okProv.info FetchStatus.FetchConfigureFailed)], TotalFetched := 0, TelemetryEvents := [] } = false := by
  have h := summary_diagnostics_only_fetched.2.1 cfgErrWorld okProv.info false plainErr rfl rfl rfl
  refine ⟨h.2.2.1, h.2.2.2, ?_⟩
  exact summary_diagnostics_only_fetched.2.2.2 _ (by decide)
